import Mathlib

/-!
Shallow embedding of the Alpaca dataset format validator (src/main.py)
and verification of its specification.

The validator loads a dataset file (`.json` array of records or `.jsonl`
newline-delimited records), checks every record against a fixed flat
string schema (required fields `instruction`, `output`; optional field
`input`) and aggregates the findings into a per-file report.

Modelling choices:
  * JSON values are the inductive `Json`; the Python runtime type name
    reported in messages (`type(x).__name__`) becomes `Json.pyTypeName`.
  * A Python `dict` produced by `json.loads` is an association list; a
    duplicate key keeps its last binding (`dict_get` looks up from the
    right), and `set(sample.keys())` becomes `List.dedup` of the key list.
  * Python `str.strip` / `str.lower` become `pyStrip` / `pyLower` over
    the character list, and `sorted` over strings becomes insertion sort
    by the code-point lexicographic order `pyStrLe`.
  * The file system and the stdlib JSON parser are outside the program;
    an input file is therefore given by its observable parse outcomes:
    `FileInput.missing` for an absent path, and otherwise the path, its
    extension, the whole-document parse outcome (used by `_load_json`)
    and the per-line parse outcomes (used by `_load_jsonl`).
-/

/-- JSON-like runtime values, as produced by the stdlib parser. -/
inductive Json where
  | null : Json
  | bool (b : Bool) : Json
  | int (n : Int) : Json
  | float (q : Rat) : Json
  | str (s : String) : Json
  | arr (xs : List Json) : Json
  | obj (kvs : List (String × Json)) : Json

/-- Python runtime type name of a parsed JSON value (`type(x).__name__`). -/
def Json.pyTypeName : Json → String
  | Json.null => "NoneType"
  | Json.bool _ => "bool"
  | Json.int _ => "int"
  | Json.float _ => "float"
  | Json.str _ => "str"
  | Json.arr _ => "list"
  | Json.obj _ => "dict"

/-- Characters removed by Python `str.strip()` with no argument. -/
def pyIsSpace (c : Char) : Bool :=
  c = ' ' || c = '\t' || c = '\n' || c = '\r' || c = '\x0b' || c = '\x0c'

/-- Python `str.strip()`: drop leading and trailing whitespace. -/
def pyStrip (s : String) : String :=
  String.mk (((s.toList.dropWhile pyIsSpace).reverse.dropWhile pyIsSpace).reverse)

/-- Python `str.lower()` (ASCII case mapping suffices for extensions). -/
def pyLower (s : String) : String :=
  String.mk (s.toList.map Char.toLower)

/-- Lexicographic order on strings by code points, as used by Python `sorted`. -/
def pyStrLe (a b : String) : Prop := a.toList ≤ b.toList

instance : DecidableRel pyStrLe :=
  fun a b => inferInstanceAs (Decidable (a.toList ≤ b.toList))

instance : IsTotal String pyStrLe := ⟨fun a b => le_total a.toList b.toList⟩

instance : IsTrans String pyStrLe := ⟨fun _ _ _ h1 h2 => le_trans h1 h2⟩

instance : IsAntisymm String pyStrLe :=
  ⟨fun a b h1 h2 => by
    cases a; cases b
    exact congrArg String.mk (le_antisymm h1 h2)⟩

/-- `REQUIRED_FIELDS` from src/main.py (a set; listed in a fixed order). -/
def REQUIRED_FIELDS : List String := ["instruction", "output"]

/-- `OPTIONAL_FIELDS` from src/main.py. -/
def OPTIONAL_FIELDS : List String := ["input"]

/-- `ALL_KNOWN_FIELDS = REQUIRED_FIELDS | OPTIONAL_FIELDS`. -/
def ALL_KNOWN_FIELDS : List String := REQUIRED_FIELDS ++ OPTIONAL_FIELDS

/-- One reported issue (`ValidationError` in src/main.py): the 0-based
sample index (`-1` marks a file-level issue), the implicated field name
(empty when not field-specific) and a message. -/
structure ValidationError where
  index : Int
  field : String
  message : String
deriving DecidableEq

/-- Aggregated outcome for one file (`ValidationResult` in src/main.py). -/
structure ValidationResult where
  file : String
  total_samples : Nat := 0
  errors : List ValidationError := []
  warnings : List ValidationError := []
deriving DecidableEq

/-- The `is_valid` property: `len(self.errors) == 0`. -/
def ValidationResult.is_valid (r : ValidationResult) : Bool :=
  r.errors.length == 0

/-- Lookup in a `dict` built from parsed JSON: the last binding of a key wins. -/
def dict_get (kvs : List (String × Json)) (f : String) : Option Json :=
  kvs.reverse.lookup f

/-- The key set of a sample, `set(sample.keys())`. -/
def sample_keys (kvs : List (String × Json)) : List String :=
  (kvs.map Prod.fst).dedup

/-- Value check for one present known field, mirroring the last loop of
`_validate_sample`: a non-string value is an error naming the actual type;
a blank string in a required field is an error; anything else is fine. -/
def check_field (index : Int) (f : String) (val : Json) : List ValidationError :=
  match val with
  | Json.str s =>
      if f ∈ REQUIRED_FIELDS ∧ pyStrip s = "" then
        [⟨index, f, "必填字段不能为空字符串"⟩]
      else []
  | v => [⟨index, f, "字段值应为字符串，实际类型为 " ++ v.pyTypeName⟩]

/-- Errors from the required-field presence loop of `_validate_sample`. -/
def missing_errors (index : Int) (kvs : List (String × Json)) : List ValidationError :=
  (REQUIRED_FIELDS.filter (fun f => f ∉ sample_keys kvs)).map
    (fun f => ⟨index, f, "缺少必填字段"⟩)

/-- The unknown keys of a sample, `keys - ALL_KNOWN_FIELDS`. -/
def unknown_fields (kvs : List (String × Json)) : List String :=
  (sample_keys kvs).filter (fun k => k ∉ ALL_KNOWN_FIELDS)

/-- The warning emitted by the unknown-field rule of `_validate_sample`. -/
def unknown_warnings (index : Int) (kvs : List (String × Json)) : List ValidationError :=
  if unknown_fields kvs = [] then []
  else
    [⟨index, "",
      "包含未知字段: " ++
        String.intercalate ", " (List.insertionSort pyStrLe (unknown_fields kvs))⟩]

/-- The body of the value loop for one known field name: look the field up
in the sample and check its value (a field name outside the sample cannot
occur, because the loop only visits present fields). -/
def field_check (index : Int) (kvs : List (String × Json)) (f : String) :
    List ValidationError :=
  match dict_get kvs f with
  | some v => check_field index f v
  | none => []

/-- Errors from the value type and content loop of `_validate_sample`,
which iterates over `ALL_KNOWN_FIELDS & keys`. -/
def value_errors (index : Int) (kvs : List (String × Json)) : List ValidationError :=
  (ALL_KNOWN_FIELDS.filter (fun f => f ∈ sample_keys kvs)).flatMap
    (field_check index kvs)

/-- `_validate_sample`: findings for one record, split into the errors and
the warnings that the Python code appends to the result. A non-object
record yields a single type-gate error and nothing else. -/
def validate_sample (sample : Json) (index : Int) :
    List ValidationError × List ValidationError :=
  match sample with
  | Json.obj kvs =>
      (missing_errors index kvs ++ value_errors index kvs, unknown_warnings index kvs)
  | s => ([⟨index, "", "样本应为 JSON 对象，实际类型为 " ++ s.pyTypeName⟩], [])

/-- Outcome of running the stdlib JSON parser on a piece of text. -/
inductive ParseOutcome where
  | ok (v : Json) : ParseOutcome
  | err (msg : String) : ParseOutcome

/-- The parsed value, when parsing succeeded. -/
def ParseOutcome.getOk : ParseOutcome → Option Json
  | ParseOutcome.ok v => some v
  | ParseOutcome.err _ => none

/-- One physical line of a `.jsonl` file: its raw text together with the
outcome of parsing the stripped line as JSON. -/
abbrev JsonlLine := String × ParseOutcome

/-- An input path as `validate` observes it: either missing, or a present
file with its path string, its extension (`path.suffix`), the outcome of
parsing the whole document, and the per-line parse outcomes. -/
inductive FileInput where
  | missing (path : String) : FileInput
  | file (path : String) (sfx : String) (jsonDoc : ParseOutcome)
      (jsonlLines : List JsonlLine) : FileInput

/-- `_load_json`: a parse failure propagates as the exception message; a
successful parse yields the element list when the top level is an array
and `none` otherwise. -/
def load_json (doc : ParseOutcome) : Except String (Option (List Json)) :=
  match doc with
  | ParseOutcome.err m => Except.error m
  | ParseOutcome.ok (Json.arr xs) => Except.ok (some xs)
  | ParseOutcome.ok _ => Except.ok none

/-- `_load_jsonl`, processing the lines from a given 1-based line number:
blank lines are skipped (but still numbered), the first non-blank line
that fails to parse aborts the load with a numbered message, and otherwise
the parsed values accumulate in line order. -/
def load_jsonl_from (lineno : Nat) : List JsonlLine → Except String (List Json)
  | [] => Except.ok []
  | (raw, p) :: rest =>
      if pyStrip raw = "" then load_jsonl_from (lineno + 1) rest
      else
        match p with
        | ParseOutcome.err m =>
            Except.error ("第 " ++ toString lineno ++ " 行 JSON 解析失败: " ++ m)
        | ParseOutcome.ok v =>
            match load_jsonl_from (lineno + 1) rest with
            | Except.error e => Except.error e
            | Except.ok vs => Except.ok (v :: vs)

/-- `_load_jsonl` on a whole file: line numbers start at 1. -/
def load_jsonl (lines : List JsonlLine) : Except String (List Json) :=
  load_jsonl_from 1 lines

/-- The record loop of `validate`: run `_validate_sample` on every sample
with its index, concatenating the errors and the warnings in order. -/
def validate_all_from : Nat → List Json → List ValidationError × List ValidationError
  | _, [] => ([], [])
  | i, s :: rest =>
      let r := validate_sample s (Int.ofNat i)
      let rs := validate_all_from (i + 1) rest
      (r.1 ++ rs.1, r.2 ++ rs.2)

/-- `validate`: the file-level orchestration. Missing path, unsupported
extension, parse failure and a non-array top level each produce a single
file-level error report; otherwise the loaded records are validated in
order, with an empty dataset additionally producing a file-level warning. -/
def validate (input : FileInput) : ValidationResult :=
  match input with
  | FileInput.missing p =>
      { file := p, total_samples := 0,
        errors := [⟨-1, "", "文件不存在: " ++ p⟩], warnings := [] }
  | FileInput.file p sfx jsonDoc jsonlLines =>
      let sfxL := pyLower sfx
      if sfxL ∉ [".json", ".jsonl"] then
        { file := p, total_samples := 0,
          errors := [⟨-1, "", "不支持的文件格式: " ++ sfxL ++ "，仅支持 .json 和 .jsonl"⟩],
          warnings := [] }
      else
        let loaded : Except String (Option (List Json)) :=
          if sfxL = ".json" then load_json jsonDoc
          else (load_jsonl jsonlLines).map some
        match loaded with
        | Except.error m =>
            { file := p, total_samples := 0,
              errors := [⟨-1, "", "文件解析失败: " ++ m⟩], warnings := [] }
        | Except.ok none =>
            { file := p, total_samples := 0,
              errors := [⟨-1, "", "JSON 文件顶层应为数组 (list)"⟩], warnings := [] }
        | Except.ok (some samples) =>
            let pair := validate_all_from 0 samples
            { file := p, total_samples := samples.length,
              errors := pair.1,
              warnings :=
                (if samples.length = 0 then [⟨-1, "", "数据集为空，没有任何样本"⟩] else []) ++
                  pair.2 }

/-! ### Lemmas about dictionary lookup and sample keys -/

lemma lookup_mem {l : List (String × Json)} {f : String} {v : Json}
    (h : List.lookup f l = some v) : (f, v) ∈ l := by
  induction l with
  | nil => simp [List.lookup] at h
  | cons p t ih =>
      obtain ⟨k, b⟩ := p
      rw [List.lookup_cons] at h
      by_cases hk : f = k
      · subst hk
        simp at h
        subst h
        exact List.mem_cons_self _ _
      · have hb : (f == k) = false := beq_eq_false_iff_ne.mpr hk
        rw [hb] at h
        exact List.mem_cons_of_mem _ (ih h)

lemma lookup_isSome {l : List (String × Json)} {f : String} :
    (List.lookup f l).isSome = true ↔ f ∈ l.map Prod.fst := by
  induction l with
  | nil => simp [List.lookup]
  | cons p t ih =>
      obtain ⟨k, b⟩ := p
      rw [List.lookup_cons]
      by_cases hk : f = k
      · subst hk
        simp
      · have hb : (f == k) = false := beq_eq_false_iff_ne.mpr hk
        rw [hb]
        simp [ih, hk]

lemma dict_get_isSome {kvs : List (String × Json)} {f : String} :
    (dict_get kvs f).isSome = true ↔ f ∈ sample_keys kvs := by
  unfold dict_get sample_keys
  rw [lookup_isSome]
  rw [List.map_reverse]
  rw [List.mem_reverse, List.mem_dedup]

lemma dict_get_mem {kvs : List (String × Json)} {f : String} {v : Json}
    (h : dict_get kvs f = some v) : (f, v) ∈ kvs :=
  List.mem_reverse.mp (lookup_mem h)

lemma dict_get_of_mem_keys {kvs : List (String × Json)} {f : String}
    (h : f ∈ sample_keys kvs) : ∃ v, dict_get kvs f = some v :=
  Option.isSome_iff_exists.mp (dict_get_isSome.mpr h)

lemma mem_keys_of_dict_get {kvs : List (String × Json)} {f : String} {v : Json}
    (h : dict_get kvs f = some v) : f ∈ sample_keys kvs :=
  dict_get_isSome.mp (by rw [h]; rfl)

/-! ### Lemmas about the per-field checks -/

lemma append_ne_missing_msg (t : String) :
    "字段值应为字符串，实际类型为 " ++ t ≠ "缺少必填字段" := by
  intro h
  have hl := congrArg String.length h
  rw [String.length_append] at hl
  have h1 : ("字段值应为字符串，实际类型为 " : String).length = 15 := by decide
  have h2 : ("缺少必填字段" : String).length = 6 := by decide
  omega

lemma check_field_shape {i : Int} {f : String} {v : Json} :
    ∀ e ∈ check_field i f v, e.index = i ∧ e.field = f := by
  intro e he
  cases v <;> simp only [check_field] at he <;>
    first
      | (split at he <;> simp_all)
      | simp_all

lemma check_field_message {i : Int} {f : String} {v : Json} :
    ∀ e ∈ check_field i f v, e.message ≠ "缺少必填字段" := by
  intro e he
  cases v <;> simp only [check_field] at he
  case str s =>
    split at he
    · simp at he
      subst he
      show ("必填字段不能为空字符串" : String) ≠ "缺少必填字段"
      decide
    · simp at he
  all_goals
    simp at he
    subst he
    exact append_ne_missing_msg _

lemma field_check_index {i : Int} {kvs : List (String × Json)} {f : String} :
    ∀ e ∈ field_check i kvs f, e.index = i ∧ e.field = f := by
  intro e he
  unfold field_check at he
  cases hd : dict_get kvs f with
  | none => rw [hd] at he; simp at he
  | some v => rw [hd] at he; exact check_field_shape e he

lemma validate_sample_index {s : Json} {i : Int} {e : ValidationError}
    (he : e ∈ (validate_sample s i).1 ∨ e ∈ (validate_sample s i).2) : e.index = i := by
  cases s
  case obj kvs =>
    rcases he with he | he
    · simp only [validate_sample, List.mem_append] at he
      rcases he with he | he
      · unfold missing_errors at he
        rw [List.mem_map] at he
        obtain ⟨f, _, he⟩ := he
        rw [← he]
      · unfold value_errors at he
        rw [List.mem_flatMap] at he
        obtain ⟨f, _, he⟩ := he
        exact (field_check_index e he).1
    · simp only [validate_sample] at he
      unfold unknown_warnings at he
      split at he
      · simp at he
      · simp at he
        subst he
        rfl
  all_goals rcases he with he | he <;> simp_all [validate_sample]

/-! ### Lemmas about the record loop of validate -/

lemma validate_all_from_fst_mem (samples : List Json) :
    ∀ (n : Nat) (e : ValidationError),
      e ∈ (validate_all_from n samples).1 ↔
        ∃ k v, samples[k]? = some v ∧ e ∈ (validate_sample v (Int.ofNat (n + k))).1 := by
  induction samples with
  | nil => intro n e; simp [validate_all_from]
  | cons s rest ih =>
      intro n e
      simp only [validate_all_from, List.mem_append]
      constructor
      · rintro (h | h)
        · exact ⟨0, s, by simp, by simpa using h⟩
        · obtain ⟨k, v, hk, hv⟩ := (ih (n + 1) e).mp h
          refine ⟨k + 1, v, by simpa using hk, ?_⟩
          rw [show n + (k + 1) = n + 1 + k by omega]
          exact hv
      · rintro ⟨k, v, hk, hv⟩
        cases k with
        | zero =>
            left
            rw [List.getElem?_cons_zero] at hk
            cases hk
            simpa using hv
        | succ k =>
            right
            rw [List.getElem?_cons_succ] at hk
            refine (ih (n + 1) e).mpr ⟨k, v, hk, ?_⟩
            rw [show n + 1 + k = n + (k + 1) by omega]
            exact hv

lemma validate_all_from_snd_mem (samples : List Json) :
    ∀ (n : Nat) (e : ValidationError),
      e ∈ (validate_all_from n samples).2 ↔
        ∃ k v, samples[k]? = some v ∧ e ∈ (validate_sample v (Int.ofNat (n + k))).2 := by
  induction samples with
  | nil => intro n e; simp [validate_all_from]
  | cons s rest ih =>
      intro n e
      simp only [validate_all_from, List.mem_append]
      constructor
      · rintro (h | h)
        · exact ⟨0, s, by simp, by simpa using h⟩
        · obtain ⟨k, v, hk, hv⟩ := (ih (n + 1) e).mp h
          refine ⟨k + 1, v, by simpa using hk, ?_⟩
          rw [show n + (k + 1) = n + 1 + k by omega]
          exact hv
      · rintro ⟨k, v, hk, hv⟩
        cases k with
        | zero =>
            left
            rw [List.getElem?_cons_zero] at hk
            cases hk
            simpa using hv
        | succ k =>
            right
            rw [List.getElem?_cons_succ] at hk
            refine (ih (n + 1) e).mpr ⟨k, v, hk, ?_⟩
            rw [show n + 1 + k = n + (k + 1) by omega]
            exact hv

/-! ### Unfolding the concrete field lists -/

lemma flatMap_filter {α β : Type} (p : α → Bool) (g : α → List β) (l : List α) :
    (l.filter p).flatMap g = l.flatMap (fun a => if p a then g a else []) := by
  induction l with
  | nil => rfl
  | cons a t ih =>
      by_cases hp : p a = true
      · simp [List.filter_cons, hp, ih]
      · simp [List.filter_cons, hp, ih]

lemma value_errors_eq (i : Int) (kvs : List (String × Json)) :
    value_errors i kvs =
      (if "instruction" ∈ sample_keys kvs then field_check i kvs "instruction" else []) ++
        ((if "output" ∈ sample_keys kvs then field_check i kvs "output" else []) ++
          (if "input" ∈ sample_keys kvs then field_check i kvs "input" else [])) := by
  unfold value_errors
  rw [flatMap_filter]
  simp only [ALL_KNOWN_FIELDS, REQUIRED_FIELDS, OPTIONAL_FIELDS]
  simp [List.flatMap_cons, decide_eq_true_eq]

lemma missing_errors_eq (i : Int) (kvs : List (String × Json)) :
    missing_errors i kvs =
      (if "instruction" ∉ sample_keys kvs then
          [⟨i, "instruction", "缺少必填字段"⟩] else []) ++
        (if "output" ∉ sample_keys kvs then [⟨i, "output", "缺少必填字段"⟩] else []) := by
  unfold missing_errors
  simp only [REQUIRED_FIELDS, List.filter_cons, List.filter_nil]
  split_ifs with h1 h2 h2 <;> simp_all

/-! ### Claim C2 -/

/-- Claim C2: for every report, `is_valid` holds exactly when the error
sequence is empty, and the warning sequence has no effect on validity. -/
theorem C2_is_valid_iff_errors_empty :
    ∀ (r : ValidationResult) (ws : List ValidationError),
      (r.is_valid = true ↔ r.errors = []) ∧
        ({ r with warnings := ws } : ValidationResult).is_valid = r.is_valid := by
  intro r ws
  constructor
  · simp [ValidationResult.is_valid, List.length_eq_zero]
  · rfl

/-! ### Claim C4 -/

/-- Claim C4: validating a record whose runtime value is not an object
emits exactly one error, with empty field name and a message naming the
actual runtime type, and nothing else (no other rule runs). -/
theorem C4_type_gate (s : Json) (i : Int) (h : ∀ kvs, s ≠ Json.obj kvs) :
    validate_sample s i =
      ([⟨i, "", "样本应为 JSON 对象，实际类型为 " ++ s.pyTypeName⟩], []) := by
  cases s <;> first | rfl | exact absurd rfl (h _)

/-- Witness for C4 at the non-object record `5`. -/
theorem C4_type_gate_witness :
    validate_sample (Json.int 5) 0 =
      ([⟨0, "", "样本应为 JSON 对象，实际类型为 " ++ (Json.int 5).pyTypeName⟩], []) :=
  C4_type_gate (Json.int 5) 0 (fun _ h => Json.noConfusion h)

/-! ### Claim C3 -/

/-- Claim C3: an object record containing exactly the required fields,
each holding a non-blank string, and no unknown fields, produces no
errors and no warnings. -/
theorem C3_valid_record_clean
    (kvs : List (String × Json)) (i : Int)
    (hinstr : "instruction" ∈ kvs.map Prod.fst)
    (hout : "output" ∈ kvs.map Prod.fst)
    (honly : ∀ p ∈ kvs, p.1 = "instruction" ∨ p.1 = "output")
    (hvals : ∀ p ∈ kvs, ∃ s, p.2 = Json.str s ∧ pyStrip s ≠ "") :
    validate_sample (Json.obj kvs) i = ([], []) := by
  have hkeys : ∀ f ∈ sample_keys kvs, f = "instruction" ∨ f = "output" := by
    intro f hf
    rw [sample_keys, List.mem_dedup, List.mem_map] at hf
    obtain ⟨p, hp, hpf⟩ := hf
    rw [← hpf]
    exact honly p hp
  have hinstr' : "instruction" ∈ sample_keys kvs := by
    rw [sample_keys, List.mem_dedup]; exact hinstr
  have hout' : "output" ∈ sample_keys kvs := by
    rw [sample_keys, List.mem_dedup]; exact hout
  have hmiss : missing_errors i kvs = [] := by
    rw [missing_errors_eq]
    simp [hinstr', hout']
  have hfc : ∀ f, field_check i kvs f = [] := by
    intro f
    unfold field_check
    cases hd : dict_get kvs f with
    | none => rfl
    | some v =>
        obtain ⟨s, hs, hns⟩ := hvals (f, v) (dict_get_mem hd)
        simp only at hs
        subst hs
        simp [check_field, hns]
  have hval : value_errors i kvs = [] := by
    rw [value_errors_eq]
    simp [hfc]
  have hunk : unknown_fields kvs = [] := by
    rw [unknown_fields, List.filter_eq_nil_iff]
    intro f hf
    rcases hkeys f hf with rfl | rfl <;> decide
  have hw : unknown_warnings i kvs = [] := by
    rw [unknown_warnings, if_pos hunk]
  show (missing_errors i kvs ++ value_errors i kvs, unknown_warnings i kvs) = ([], [])
  rw [hmiss, hval, hw]
  rfl

/-- Witness for C3 at a concrete well-formed record. -/
theorem C3_valid_record_clean_witness :
    validate_sample
        (Json.obj [("instruction", Json.str "a"), ("output", Json.str "b")]) 0 =
      ([], []) := by
  apply C3_valid_record_clean
  · decide
  · decide
  · intro p hp
    simp only [List.mem_cons, List.mem_singleton] at hp
    rcases hp with rfl | hp
    · left; rfl
    · simp at hp
      subst hp
      right; rfl
  · intro p hp
    simp only [List.mem_cons, List.mem_singleton] at hp
    rcases hp with rfl | hp
    · exact ⟨"a", rfl, by decide⟩
    · simp at hp
      subst hp
      exact ⟨"b", rfl, by decide⟩

/-! ### Claim C5 -/

/-- Claim C5: among the errors of an object record, those carrying the
missing-required-field message are exactly one error per absent required
field, each naming that field; the presence checks produce nothing else. -/
theorem C5_missing_required (kvs : List (String × Json)) (i : Int) :
    ((validate_sample (Json.obj kvs) i).1.filter
        (fun e => e.message = "缺少必填字段")) =
      (REQUIRED_FIELDS.filter (fun f => f ∉ kvs.map Prod.fst)).map
        (fun f => ⟨i, f, "缺少必填字段"⟩) := by
  show ((missing_errors i kvs ++ value_errors i kvs).filter _) = _
  rw [List.filter_append]
  have h1 : (missing_errors i kvs).filter (fun e => e.message = "缺少必填字段") =
      missing_errors i kvs := by
    rw [List.filter_eq_self]
    intro e he
    rw [missing_errors, List.mem_map] at he
    obtain ⟨f, _, he⟩ := he
    rw [← he]
    simp
  have h2 : (value_errors i kvs).filter (fun e => e.message = "缺少必填字段") = [] := by
    rw [List.filter_eq_nil_iff]
    intro e he
    rw [value_errors, List.mem_flatMap] at he
    obtain ⟨f, _, he⟩ := he
    have hne : e.message ≠ "缺少必填字段" := by
      unfold field_check at he
      cases hd : dict_get kvs f with
      | none => rw [hd] at he; simp at he
      | some v => rw [hd] at he; exact check_field_message e he
    simpa using hne
  rw [h1, h2, List.append_nil, missing_errors]
  congr 1
  apply List.filter_congr
  intro f _
  rw [decide_eq_decide]
  rw [sample_keys, List.mem_dedup]

/-! ### Claim C6 -/

/-- Claim C6: a record with at least one key outside the known field set
yields exactly one warning, with empty field name, whose message lists all
unknown field names sorted lexicographically and comma-joined; a record
with no unknown keys yields no warning. -/
theorem C6_unknown_warning (kvs : List (String × Json)) (i : Int) :
    ((∀ k ∈ kvs.map Prod.fst, k ∈ ALL_KNOWN_FIELDS) →
        (validate_sample (Json.obj kvs) i).2 = []) ∧
      ((∃ k, k ∈ kvs.map Prod.fst ∧ k ∉ ALL_KNOWN_FIELDS) →
        ∃ u, (validate_sample (Json.obj kvs) i).2 =
            [⟨i, "", "包含未知字段: " ++ String.intercalate ", " u⟩] ∧
          List.Sorted (· ≤ ·) u ∧ u.Perm (unknown_fields kvs)) := by
  constructor
  · intro h
    have hunk : unknown_fields kvs = [] := by
      rw [unknown_fields, List.filter_eq_nil_iff]
      intro k hk
      rw [sample_keys, List.mem_dedup] at hk
      simp [h k hk]
    show unknown_warnings i kvs = []
    rw [unknown_warnings, if_pos hunk]
  · rintro ⟨k, hk, hnk⟩
    have hmem : k ∈ unknown_fields kvs := by
      rw [unknown_fields, List.mem_filter]
      refine ⟨by rw [sample_keys, List.mem_dedup]; exact hk, by simpa using hnk⟩
    have hne : unknown_fields kvs ≠ [] := List.ne_nil_of_mem hmem
    refine ⟨List.insertionSort pyStrLe (unknown_fields kvs), ?_, ?_, ?_⟩
    · show unknown_warnings i kvs = _
      rw [unknown_warnings, if_neg hne]
    · exact (List.sorted_insertionSort pyStrLe (unknown_fields kvs)).imp
        (fun h => String.le_iff_toList_le.mpr h)
    · exact List.perm_insertionSort pyStrLe (unknown_fields kvs)

/-- Witness for C6: both branches at concrete records. -/
theorem C6_unknown_warning_witness :
    ((validate_sample
          (Json.obj [("instruction", Json.str "a"), ("output", Json.str "b")]) 0).2 = []) ∧
      (∃ u, (validate_sample
            (Json.obj [("instruction", Json.str "a"), ("output", Json.str "b"),
              ("zz", Json.null), ("aa", Json.int 1)]) 0).2 =
          [⟨0, "", "包含未知字段: " ++ String.intercalate ", " u⟩] ∧
        List.Sorted (· ≤ ·) u ∧
        u.Perm (unknown_fields
            [("instruction", Json.str "a"), ("output", Json.str "b"),
              ("zz", Json.null), ("aa", Json.int 1)])) := by
  constructor
  · exact (C6_unknown_warning _ 0).1 (by decide)
  · refine (C6_unknown_warning _ 0).2 ⟨"zz", ?_, ?_⟩
    · decide
    · decide

/-! ### Claim C7 -/

lemma filter_field_check_self (i : Int) (kvs : List (String × Json)) (f : String) :
    (field_check i kvs f).filter (fun e => e.field = f) = field_check i kvs f := by
  rw [List.filter_eq_self]
  intro e he
  simp [(field_check_index e he).2]

lemma filter_field_check_other (i : Int) (kvs : List (String × Json)) {f g : String}
    (hne : g ≠ f) : (field_check i kvs g).filter (fun e => e.field = f) = [] := by
  rw [List.filter_eq_nil_iff]
  intro e he
  have := (field_check_index e he).2
  simp [this, hne]

/-- Filtering a conditional missing-field error by a different field name. -/
lemma filter_if_missing (i : Int) {c : Prop} [Decidable c] {g f : String}
    (hne : g ≠ f) (m : String) :
    (if c then [(⟨i, g, m⟩ : ValidationError)] else []).filter
        (fun e => e.field = f) = [] := by
  split_ifs
  · simp [List.filter_singleton, hne]
  · rfl

/-- Filtering a conditional field check by a different field name. -/
lemma filter_if_field_check (i : Int) (kvs : List (String × Json)) {c : Prop}
    [Decidable c] {g f : String} (hne : g ≠ f) :
    (if c then field_check i kvs g else []).filter (fun e => e.field = f) = [] := by
  split_ifs
  · exact filter_field_check_other i kvs hne
  · rfl

/-- The record-level errors carrying a given present known field name are
exactly the value check of that field. -/
lemma errors_filter_field (i : Int) (kvs : List (String × Json)) (f : String) (v : Json)
    (hd : dict_get kvs f = some v) (hk : f ∈ ALL_KNOWN_FIELDS) :
    (validate_sample (Json.obj kvs) i).1.filter (fun e => e.field = f) =
      check_field i f v := by
  have hf : f ∈ sample_keys kvs := mem_keys_of_dict_get hd
  have hfc : field_check i kvs f = check_field i f v := by
    unfold field_check
    rw [hd]
  show ((missing_errors i kvs ++ value_errors i kvs).filter _) = _
  rw [missing_errors_eq, value_errors_eq]
  simp only [ALL_KNOWN_FIELDS, REQUIRED_FIELDS, OPTIONAL_FIELDS] at hk
  simp only [List.cons_append, List.nil_append, List.mem_cons,
    List.mem_singleton, List.not_mem_nil, or_false] at hk
  simp only [List.filter_append]
  rcases hk with rfl | rfl | rfl
  · rw [if_neg (not_not_intro hf)]
    rw [if_pos hf, filter_field_check_self, hfc]
    rw [filter_if_missing i (show ("output" : String) ≠ "instruction" by decide)]
    rw [filter_if_field_check i kvs (show ("output" : String) ≠ "instruction" by decide)]
    rw [filter_if_field_check i kvs (show ("input" : String) ≠ "instruction" by decide)]
    simp
  · rw [if_neg (not_not_intro hf)]
    rw [if_pos hf, filter_field_check_self, hfc]
    rw [filter_if_missing i (show ("instruction" : String) ≠ "output" by decide)]
    rw [filter_if_field_check i kvs (show ("instruction" : String) ≠ "output" by decide)]
    rw [filter_if_field_check i kvs (show ("input" : String) ≠ "output" by decide)]
    simp
  · rw [if_pos hf, filter_field_check_self, hfc]
    rw [filter_if_missing i (show ("instruction" : String) ≠ "input" by decide)]
    rw [filter_if_missing i (show ("output" : String) ≠ "input" by decide)]
    rw [filter_if_field_check i kvs (show ("instruction" : String) ≠ "input" by decide)]
    rw [filter_if_field_check i kvs (show ("output" : String) ≠ "input" by decide)]
    simp

/-- Claim C7: a blank string in the optional field yields no finding for
that field, the same blank string in a required field yields exactly the
empty-required-field error, and a non-string value in any present known
field yields exactly the error naming the field and the actual type. -/
theorem C7_value_content_checks (kvs : List (String × Json)) (i : Int) :
    (∀ s, dict_get kvs "input" = some (Json.str s) → pyStrip s = "" →
        ((validate_sample (Json.obj kvs) i).1.filter (fun e => e.field = "input") = [] ∧
          (validate_sample (Json.obj kvs) i).2.filter (fun e => e.field = "input") = [])) ∧
      (∀ f s, f ∈ REQUIRED_FIELDS → dict_get kvs f = some (Json.str s) →
          pyStrip s = "" →
          (validate_sample (Json.obj kvs) i).1.filter (fun e => e.field = f) =
            [⟨i, f, "必填字段不能为空字符串"⟩]) ∧
      (∀ f v, f ∈ ALL_KNOWN_FIELDS → dict_get kvs f = some v →
          (∀ s, v ≠ Json.str s) →
          (validate_sample (Json.obj kvs) i).1.filter (fun e => e.field = f) =
            [⟨i, f, "字段值应为字符串，实际类型为 " ++ v.pyTypeName⟩]) := by
  refine ⟨?_, ?_, ?_⟩
  · intro s hd _
    constructor
    · rw [errors_filter_field i kvs "input" (Json.str s) hd (by decide)]
      simp only [check_field]
      rw [if_neg]
      rintro ⟨h1, -⟩
      revert h1
      decide
    · show (unknown_warnings i kvs).filter _ = []
      rw [unknown_warnings]
      split_ifs <;> rfl
  · intro f s hf hd hs
    have hk : f ∈ ALL_KNOWN_FIELDS := by
      rw [ALL_KNOWN_FIELDS]
      exact List.mem_append_left _ hf
    rw [errors_filter_field i kvs f (Json.str s) hd hk]
    simp only [check_field]
    rw [if_pos ⟨hf, hs⟩]
  · intro f v hk hd hnot
    rw [errors_filter_field i kvs f v hd hk]
    cases v <;> first | rfl | exact absurd rfl (hnot _)

/-- Witness for C7: all three branches at a concrete record. -/
theorem C7_value_content_checks_witness :
    ((validate_sample (Json.obj
          [("instruction", Json.str " "), ("output", Json.int 2),
            ("input", Json.str "")]) 0).1.filter
        (fun e => e.field = "input") = [] ∧
      (validate_sample (Json.obj
          [("instruction", Json.str " "), ("output", Json.int 2),
            ("input", Json.str "")]) 0).2.filter
        (fun e => e.field = "input") = []) ∧
      ((validate_sample (Json.obj
          [("instruction", Json.str " "), ("output", Json.int 2),
            ("input", Json.str "")]) 0).1.filter
        (fun e => e.field = "instruction") =
        [⟨0, "instruction", "必填字段不能为空字符串"⟩]) ∧
      ((validate_sample (Json.obj
          [("instruction", Json.str " "), ("output", Json.int 2),
            ("input", Json.str "")]) 0).1.filter
        (fun e => e.field = "output") =
        [⟨0, "output", "字段值应为字符串，实际类型为 " ++ (Json.int 2).pyTypeName⟩]) := by
  refine ⟨?_, ?_, ?_⟩
  · exact (C7_value_content_checks _ 0).1 "" rfl (by decide)
  · exact (C7_value_content_checks _ 0).2.1 "instruction" " " (by decide) rfl (by decide)
  · exact (C7_value_content_checks _ 0).2.2 "output" (Json.int 2) (by decide) rfl
      (fun _ h => Json.noConfusion h)

/-! ### Unfolding validate on each input class -/

lemma validate_missing_eq (p : String) :
    validate (FileInput.missing p) =
      { file := p, total_samples := 0,
        errors := [⟨-1, "", "文件不存在: " ++ p⟩], warnings := [] } := rfl

lemma validate_badext_eq (p sfx : String) (jd : ParseOutcome) (jl : List JsonlLine)
    (h : pyLower sfx ∉ ([".json", ".jsonl"] : List String)) :
    validate (FileInput.file p sfx jd jl) =
      { file := p, total_samples := 0,
        errors := [⟨-1, "",
          "不支持的文件格式: " ++ pyLower sfx ++ "，仅支持 .json 和 .jsonl"⟩],
        warnings := [] } := by
  simp only [validate]
  rw [if_pos h]

lemma validate_json_parsefail_eq (p sfx : String) (jd : ParseOutcome)
    (jl : List JsonlLine) (m : String)
    (hj : pyLower sfx = ".json") (he : jd = ParseOutcome.err m) :
    validate (FileInput.file p sfx jd jl) =
      { file := p, total_samples := 0,
        errors := [⟨-1, "", "文件解析失败: " ++ m⟩], warnings := [] } := by
  simp only [validate]
  rw [hj, he]
  simp [load_json]

lemma validate_jsonl_parsefail_eq (p sfx : String) (jd : ParseOutcome)
    (jl : List JsonlLine) (m : String)
    (hj : pyLower sfx = ".jsonl") (hl : load_jsonl jl = Except.error m) :
    validate (FileInput.file p sfx jd jl) =
      { file := p, total_samples := 0,
        errors := [⟨-1, "", "文件解析失败: " ++ m⟩], warnings := [] } := by
  simp only [validate]
  rw [hj, hl]
  simp [Except.map]

lemma validate_nonarray_eq (p sfx : String) (jd : ParseOutcome)
    (jl : List JsonlLine) (v : Json)
    (hj : pyLower sfx = ".json") (hv : jd = ParseOutcome.ok v)
    (hnot : ∀ xs, v ≠ Json.arr xs) :
    validate (FileInput.file p sfx jd jl) =
      { file := p, total_samples := 0,
        errors := [⟨-1, "", "JSON 文件顶层应为数组 (list)"⟩], warnings := [] } := by
  simp only [validate]
  rw [hj, hv]
  cases v
  case arr xs => exact absurd rfl (hnot xs)
  all_goals simp [load_json]

lemma validate_json_loaded_eq (p sfx : String) (jd : ParseOutcome)
    (jl : List JsonlLine) (xs : List Json)
    (hj : pyLower sfx = ".json") (hv : jd = ParseOutcome.ok (Json.arr xs)) :
    validate (FileInput.file p sfx jd jl) =
      { file := p, total_samples := xs.length,
        errors := (validate_all_from 0 xs).1,
        warnings :=
          (if xs.length = 0 then [⟨-1, "", "数据集为空，没有任何样本"⟩] else []) ++
            (validate_all_from 0 xs).2 } := by
  simp only [validate]
  rw [hj, hv]
  simp [load_json]

lemma validate_jsonl_loaded_eq (p sfx : String) (jd : ParseOutcome)
    (jl : List JsonlLine) (xs : List Json)
    (hj : pyLower sfx = ".jsonl") (hl : load_jsonl jl = Except.ok xs) :
    validate (FileInput.file p sfx jd jl) =
      { file := p, total_samples := xs.length,
        errors := (validate_all_from 0 xs).1,
        warnings :=
          (if xs.length = 0 then [⟨-1, "", "数据集为空，没有任何样本"⟩] else []) ++
            (validate_all_from 0 xs).2 } := by
  simp only [validate]
  rw [hj, hl]
  simp [Except.map]

/-! ### Claim C8 -/

/-- Claim C8: every load failure (missing file, unsupported extension,
parse failure, non-array top level) returns a report with exactly one
file-level error (index -1, empty field), zero total samples, no
warnings, and no record-level findings. -/
theorem C8_load_failure_reports (p sfx : String) (jd : ParseOutcome)
    (jl : List JsonlLine) :
    (validate (FileInput.missing p) =
        { file := p, total_samples := 0,
          errors := [⟨-1, "", "文件不存在: " ++ p⟩], warnings := [] }) ∧
      (pyLower sfx ∉ ([".json", ".jsonl"] : List String) →
        validate (FileInput.file p sfx jd jl) =
          { file := p, total_samples := 0,
            errors := [⟨-1, "",
              "不支持的文件格式: " ++ pyLower sfx ++ "，仅支持 .json 和 .jsonl"⟩],
            warnings := [] }) ∧
      (∀ m, pyLower sfx = ".json" → jd = ParseOutcome.err m →
        validate (FileInput.file p sfx jd jl) =
          { file := p, total_samples := 0,
            errors := [⟨-1, "", "文件解析失败: " ++ m⟩], warnings := [] }) ∧
      (∀ m, pyLower sfx = ".jsonl" → load_jsonl jl = Except.error m →
        validate (FileInput.file p sfx jd jl) =
          { file := p, total_samples := 0,
            errors := [⟨-1, "", "文件解析失败: " ++ m⟩], warnings := [] }) ∧
      (∀ v, pyLower sfx = ".json" → jd = ParseOutcome.ok v →
        (∀ xs, v ≠ Json.arr xs) →
        validate (FileInput.file p sfx jd jl) =
          { file := p, total_samples := 0,
            errors := [⟨-1, "", "JSON 文件顶层应为数组 (list)"⟩],
            warnings := [] }) := by
  refine ⟨validate_missing_eq p, ?_, ?_, ?_, ?_⟩
  · intro h
    exact validate_badext_eq p sfx jd jl h
  · intro m hj he
    exact validate_json_parsefail_eq p sfx jd jl m hj he
  · intro m hj hl
    exact validate_jsonl_parsefail_eq p sfx jd jl m hj hl
  · intro v hj hv hnot
    exact validate_nonarray_eq p sfx jd jl v hj hv hnot

/-- Witness for C8: each failure class at a concrete input. -/
theorem C8_load_failure_reports_witness :
    (validate (FileInput.missing "d.json") =
        { file := "d.json", total_samples := 0,
          errors := [⟨-1, "", "文件不存在: " ++ "d.json"⟩], warnings := [] }) ∧
      (validate (FileInput.file "d.txt" ".TXT" (ParseOutcome.err "boom") []) =
        { file := "d.txt", total_samples := 0,
          errors := [⟨-1, "",
            "不支持的文件格式: " ++ pyLower ".TXT" ++ "，仅支持 .json 和 .jsonl"⟩],
          warnings := [] }) ∧
      (validate (FileInput.file "d.json" ".json" (ParseOutcome.err "boom") []) =
        { file := "d.json", total_samples := 0,
          errors := [⟨-1, "", "文件解析失败: " ++ "boom"⟩], warnings := [] }) ∧
      (validate (FileInput.file "d.jsonl" ".jsonl" (ParseOutcome.err "x")
          [("oops", ParseOutcome.err "bad")]) =
        { file := "d.jsonl", total_samples := 0,
          errors := [⟨-1, "",
            "文件解析失败: " ++ ("第 " ++ toString 1 ++ " 行 JSON 解析失败: " ++ "bad")⟩],
          warnings := [] }) ∧
      (validate (FileInput.file "d.json" ".json"
          (ParseOutcome.ok (Json.obj [])) []) =
        { file := "d.json", total_samples := 0,
          errors := [⟨-1, "", "JSON 文件顶层应为数组 (list)"⟩],
          warnings := [] }) := by
  refine ⟨(C8_load_failure_reports "d.json" ".x" (ParseOutcome.err "?") []).1,
    ?_, ?_, ?_, ?_⟩
  · exact (C8_load_failure_reports "d.txt" ".TXT" (ParseOutcome.err "boom") []).2.1
      (by decide)
  · exact (C8_load_failure_reports "d.json" ".json" (ParseOutcome.err "boom") []).2.2.1
      "boom" (by decide) rfl
  · refine (C8_load_failure_reports "d.jsonl" ".jsonl" (ParseOutcome.err "x")
      [("oops", ParseOutcome.err "bad")]).2.2.2.1 _ (by decide) ?_
    show load_jsonl_from 1 [("oops", ParseOutcome.err "bad")] = _
    rw [load_jsonl_from]
    rw [if_neg (by decide)]
  · exact (C8_load_failure_reports "d.json" ".json"
      (ParseOutcome.ok (Json.obj [])) []).2.2.2.2 (Json.obj []) (by decide) rfl
      (fun _ h => Json.noConfusion h)

/-! ### Claim C1 -/

/-- Claim C1: validate is a total function into reports, and every
user-input problem (missing file, unsupported extension, parse failure of
either format, non-array top level, schema violations of loaded records)
surfaces as a finding inside the returned report. -/
theorem C1_conditions_become_findings (input : FileInput) :
    (∀ p, input = FileInput.missing p →
        ∃ e ∈ (validate input).errors, e.index = -1 ∧ e.field = "") ∧
      (∀ p sfx jd jl, input = FileInput.file p sfx jd jl →
        pyLower sfx ∉ ([".json", ".jsonl"] : List String) →
        ∃ e ∈ (validate input).errors, e.index = -1 ∧ e.field = "") ∧
      (∀ p sfx jd jl m, input = FileInput.file p sfx jd jl →
        pyLower sfx = ".json" → jd = ParseOutcome.err m →
        ∃ e ∈ (validate input).errors, e.index = -1 ∧ e.field = "") ∧
      (∀ p sfx jd jl m, input = FileInput.file p sfx jd jl →
        pyLower sfx = ".jsonl" → load_jsonl jl = Except.error m →
        ∃ e ∈ (validate input).errors, e.index = -1 ∧ e.field = "") ∧
      (∀ p sfx jd jl v, input = FileInput.file p sfx jd jl →
        pyLower sfx = ".json" → jd = ParseOutcome.ok v → (∀ xs, v ≠ Json.arr xs) →
        ∃ e ∈ (validate input).errors, e.index = -1 ∧ e.field = "") ∧
      (∀ p sfx jd jl xs k sample, input = FileInput.file p sfx jd jl →
        pyLower sfx = ".json" → jd = ParseOutcome.ok (Json.arr xs) →
        xs[k]? = some sample →
        (∀ e ∈ (validate_sample sample (Int.ofNat k)).1, e ∈ (validate input).errors) ∧
          (∀ e ∈ (validate_sample sample (Int.ofNat k)).2,
            e ∈ (validate input).warnings)) ∧
      (∀ p sfx jd jl xs k sample, input = FileInput.file p sfx jd jl →
        pyLower sfx = ".jsonl" → load_jsonl jl = Except.ok xs →
        xs[k]? = some sample →
        (∀ e ∈ (validate_sample sample (Int.ofNat k)).1, e ∈ (validate input).errors) ∧
          (∀ e ∈ (validate_sample sample (Int.ofNat k)).2,
            e ∈ (validate input).warnings)) := by
  refine ⟨?_, ?_, ?_, ?_, ?_, ?_, ?_⟩
  · rintro p rfl
    rw [validate_missing_eq]
    exact ⟨_, List.mem_singleton.mpr rfl, rfl, rfl⟩
  · rintro p sfx jd jl rfl h
    rw [validate_badext_eq p sfx jd jl h]
    exact ⟨_, List.mem_singleton.mpr rfl, rfl, rfl⟩
  · rintro p sfx jd jl m rfl hj he
    rw [validate_json_parsefail_eq p sfx jd jl m hj he]
    exact ⟨_, List.mem_singleton.mpr rfl, rfl, rfl⟩
  · rintro p sfx jd jl m rfl hj hl
    rw [validate_jsonl_parsefail_eq p sfx jd jl m hj hl]
    exact ⟨_, List.mem_singleton.mpr rfl, rfl, rfl⟩
  · rintro p sfx jd jl v rfl hj hv hnot
    rw [validate_nonarray_eq p sfx jd jl v hj hv hnot]
    exact ⟨_, List.mem_singleton.mpr rfl, rfl, rfl⟩
  · rintro p sfx jd jl xs k sample rfl hj hv hk
    rw [validate_json_loaded_eq p sfx jd jl xs hj hv]
    constructor
    · intro e he
      exact (validate_all_from_fst_mem xs 0 e).mpr
        ⟨k, sample, hk, by rw [Nat.zero_add]; exact he⟩
    · intro e he
      exact List.mem_append_right _ ((validate_all_from_snd_mem xs 0 e).mpr
        ⟨k, sample, hk, by rw [Nat.zero_add]; exact he⟩)
  · rintro p sfx jd jl xs k sample rfl hj hl hk
    rw [validate_jsonl_loaded_eq p sfx jd jl xs hj hl]
    constructor
    · intro e he
      exact (validate_all_from_fst_mem xs 0 e).mpr
        ⟨k, sample, hk, by rw [Nat.zero_add]; exact he⟩
    · intro e he
      exact List.mem_append_right _ ((validate_all_from_snd_mem xs 0 e).mpr
        ⟨k, sample, hk, by rw [Nat.zero_add]; exact he⟩)

/-- Witness for C1: a missing path and a loaded record with a schema
violation both surface as findings of the returned report. -/
theorem C1_conditions_become_findings_witness :
    (∃ e ∈ (validate (FileInput.missing "a.json")).errors,
        e.index = -1 ∧ e.field = "") ∧
      (∀ e ∈ (validate_sample (Json.int 7) (Int.ofNat 0)).1,
        e ∈ (validate (FileInput.file "a.json" ".json"
          (ParseOutcome.ok (Json.arr [Json.int 7])) [])).errors) := by
  constructor
  · exact (C1_conditions_become_findings (FileInput.missing "a.json")).1 "a.json" rfl
  · exact ((C1_conditions_become_findings (FileInput.file "a.json" ".json"
      (ParseOutcome.ok (Json.arr [Json.int 7])) [])).2.2.2.2.2.1 "a.json" ".json"
      (ParseOutcome.ok (Json.arr [Json.int 7])) [] [Json.int 7] 0 (Json.int 7)
      rfl (by decide) rfl rfl).1

/-! ### Claim C9 -/

lemma load_jsonl_from_ok (lines : List JsonlLine) :
    ∀ n, (∀ l ∈ lines, pyStrip l.1 = "" ∨ ∃ v, l.2 = ParseOutcome.ok v) →
      load_jsonl_from n lines =
        Except.ok ((lines.filter (fun l => ¬(pyStrip l.1 = ""))).filterMap
          (fun l => l.2.getOk)) := by
  induction lines with
  | nil => intro n _; rfl
  | cons l rest ih =>
      intro n h
      obtain ⟨raw, po⟩ := l
      by_cases hb : pyStrip raw = ""
      · have hstep : load_jsonl_from n ((raw, po) :: rest) =
            load_jsonl_from (n + 1) rest := by
          cases po with
          | ok v =>
              show (if pyStrip raw = "" then load_jsonl_from (n + 1) rest
                else
                  match load_jsonl_from (n + 1) rest with
                  | Except.error e => Except.error e
                  | Except.ok vs => Except.ok (v :: vs)) = _
              rw [if_pos hb]
          | err m2 =>
              show (if pyStrip raw = "" then load_jsonl_from (n + 1) rest
                else Except.error
                  ("第 " ++ toString n ++ " 行 JSON 解析失败: " ++ m2)) = _
              rw [if_pos hb]
        rw [hstep, ih (n + 1) (fun l hl => h l (List.mem_cons_of_mem _ hl))]
        congr 1
        rw [List.filter_cons]
        rw [if_neg (by simpa using hb)]
      · have h0 := h (raw, po) (List.mem_cons_self _ _)
        simp only at h0
        rcases h0 with h0 | ⟨v, rfl⟩
        · exact absurd h0 hb
        · show (if pyStrip raw = "" then load_jsonl_from (n + 1) rest
            else
              match load_jsonl_from (n + 1) rest with
              | Except.error e => Except.error e
              | Except.ok vs => Except.ok (v :: vs)) = _
          rw [if_neg hb, ih (n + 1) (fun l hl => h l (List.mem_cons_of_mem _ hl))]
          rw [List.filter_cons]
          rw [if_pos (by simpa using hb)]
          rfl

lemma load_jsonl_from_err (lines : List JsonlLine) :
    ∀ n k raw m, lines[k]? = some (raw, ParseOutcome.err m) → pyStrip raw ≠ "" →
      (∀ j, j < k → ∀ l, lines[j]? = some l →
        pyStrip l.1 = "" ∨ ∃ v, l.2 = ParseOutcome.ok v) →
      load_jsonl_from n lines =
        Except.error ("第 " ++ toString (n + k) ++ " 行 JSON 解析失败: " ++ m) := by
  induction lines with
  | nil => intro n k raw m hk; simp at hk
  | cons l rest ih =>
      intro n k raw m hk hraw hpre
      obtain ⟨raw0, po0⟩ := l
      cases k with
      | zero =>
          rw [List.getElem?_cons_zero] at hk
          simp only [Option.some.injEq, Prod.mk.injEq] at hk
          obtain ⟨h1, h2⟩ := hk
          subst h2
          rw [Nat.add_zero]
          show (if pyStrip raw0 = "" then load_jsonl_from (n + 1) rest
            else Except.error ("第 " ++ toString n ++ " 行 JSON 解析失败: " ++ m)) = _
          rw [if_neg (by rw [h1]; exact hraw)]
      | succ k =>
          rw [List.getElem?_cons_succ] at hk
          have h0 := hpre 0 (Nat.succ_pos k) (raw0, po0) List.getElem?_cons_zero
          simp only at h0
          have hpre2 : ∀ j, j < k → ∀ l, rest[j]? = some l →
              pyStrip l.1 = "" ∨ ∃ v, l.2 = ParseOutcome.ok v := by
            intro j hj l hl
            refine hpre (j + 1) (by omega) l ?_
            rw [List.getElem?_cons_succ]
            exact hl
          have hrec := ih (n + 1) k raw m hk hraw hpre2
          rw [show n + (k + 1) = n + 1 + k from by omega]
          by_cases hb : pyStrip raw0 = ""
          · have hstep : load_jsonl_from n ((raw0, po0) :: rest) =
                load_jsonl_from (n + 1) rest := by
              cases po0 with
              | ok v =>
                  show (if pyStrip raw0 = "" then load_jsonl_from (n + 1) rest
                    else
                      match load_jsonl_from (n + 1) rest with
                      | Except.error e => Except.error e
                      | Except.ok vs => Except.ok (v :: vs)) = _
                  rw [if_pos hb]
              | err m2 =>
                  show (if pyStrip raw0 = "" then load_jsonl_from (n + 1) rest
                    else Except.error
                      ("第 " ++ toString n ++ " 行 JSON 解析失败: " ++ m2)) = _
                  rw [if_pos hb]
            rw [hstep]
            exact hrec
          · rcases h0 with h0 | ⟨v, rfl⟩
            · exact absurd h0 hb
            · show (if pyStrip raw0 = "" then load_jsonl_from (n + 1) rest
                else
                  match load_jsonl_from (n + 1) rest with
                  | Except.error e => Except.error e
                  | Except.ok vs => Except.ok (v :: vs)) = _
              rw [if_neg hb, hrec]

/-- Claim C9: in line-delimited loading, blank lines are skipped and not
counted as records, the remaining lines parse independently in line
order, and the first non-blank line that fails to parse aborts the whole
load with an error carrying its 1-based line number. -/
theorem C9_jsonl_contract (lines : List JsonlLine) :
    ((∀ l ∈ lines, pyStrip l.1 = "" ∨ ∃ v, l.2 = ParseOutcome.ok v) →
        load_jsonl lines =
          Except.ok ((lines.filter (fun l => ¬(pyStrip l.1 = ""))).filterMap
            (fun l => l.2.getOk))) ∧
      (∀ k raw m, lines[k]? = some (raw, ParseOutcome.err m) → pyStrip raw ≠ "" →
        (∀ j, j < k → ∀ l, lines[j]? = some l →
          pyStrip l.1 = "" ∨ ∃ v, l.2 = ParseOutcome.ok v) →
        load_jsonl lines =
          Except.error ("第 " ++ toString (k + 1) ++ " 行 JSON 解析失败: " ++ m)) := by
  constructor
  · intro h
    exact load_jsonl_from_ok lines 1 h
  · intro k raw m hk hraw hpre
    rw [load_jsonl, load_jsonl_from_err lines 1 k raw m hk hraw hpre]
    rw [Nat.add_comm 1 k]

/-- Witness for C9: a blank line is skipped before a good line, and a bad
second line aborts with its 1-based number. -/
theorem C9_jsonl_contract_witness :
    (load_jsonl [("  ", ParseOutcome.err "junk"), ("{}", ParseOutcome.ok (Json.obj []))] =
        Except.ok (([("  ", ParseOutcome.err "junk"),
            ("{}", ParseOutcome.ok (Json.obj []))].filter
              (fun l => ¬(pyStrip l.1 = ""))).filterMap (fun l => l.2.getOk))) ∧
      (load_jsonl [(" ", ParseOutcome.ok Json.null), ("x", ParseOutcome.err "bad")] =
        Except.error ("第 " ++ toString (1 + 1) ++ " 行 JSON 解析失败: " ++ "bad")) := by
  constructor
  · refine (C9_jsonl_contract _).1 ?_
    intro l hl
    simp only [List.mem_cons, List.not_mem_nil, or_false] at hl
    rcases hl with rfl | rfl
    · left; decide
    · right; exact ⟨Json.obj [], rfl⟩
  · refine (C9_jsonl_contract _).2 1 "x" "bad" rfl (by decide) ?_
    intro j hj l hl
    have hj0 : j = 0 := by omega
    subst hj0
    rw [List.getElem?_cons_zero] at hl
    cases hl
    left
    decide

/-! ### Claim C10 -/

lemma loaded_report_invariant (xs : List Json) (e : ValidationError)
    (he : e ∈ (validate_all_from 0 xs).1 ∨
      e ∈ ((if xs.length = 0 then
          [(⟨-1, "", "数据集为空，没有任何样本"⟩ : ValidationError)] else []) ++
        (validate_all_from 0 xs).2)) :
    (e.index = -1 ∨ (0 ≤ e.index ∧ e.index < (xs.length : Int))) ∧
      (e.index = -1 → xs.length = 0) := by
  have key : ∀ k v, xs[k]? = some v →
      (e ∈ (validate_sample v (Int.ofNat (0 + k))).1 ∨
        e ∈ (validate_sample v (Int.ofNat (0 + k))).2) →
      (e.index = -1 ∨ (0 ≤ e.index ∧ e.index < (xs.length : Int))) ∧
        (e.index = -1 → xs.length = 0) := by
    intro k v hk hv
    have hidx : e.index = Int.ofNat (0 + k) := validate_sample_index hv
    have hidx2 : e.index = (k : Int) := by
      rw [hidx, Nat.zero_add, Int.ofNat_eq_natCast]
    have hklen : k < xs.length := by
      by_contra hge
      rw [List.getElem?_eq_none (by omega)] at hk
      exact Option.noConfusion hk
    constructor
    · right
      rw [hidx2]
      constructor
      · omega
      · omega
    · intro hneg
      rw [hidx2] at hneg
      omega
  rcases he with he | he
  · obtain ⟨k, v, hk, hv⟩ := (validate_all_from_fst_mem xs 0 e).mp he
    exact key k v hk (Or.inl hv)
  · rw [List.mem_append] at he
    rcases he with he | he
    · split_ifs at he with h0
      · simp only [List.mem_singleton] at he
        subst he
        exact ⟨Or.inl rfl, fun _ => h0⟩
      · simp at he
    · obtain ⟨k, v, hk, hv⟩ := (validate_all_from_snd_mem xs 0 e).mp he
      exact key k v hk (Or.inr hv)

/-- Claim C10: every finding of a returned report has either the sentinel
index -1 or an index within the sample range, and a sentinel finding only
occurs in reports whose total sample count is zero. -/
theorem C10_finding_index_invariant (input : FileInput) (e : ValidationError)
    (he : e ∈ (validate input).errors ∨ e ∈ (validate input).warnings) :
    (e.index = -1 ∨
        (0 ≤ e.index ∧ e.index < ((validate input).total_samples : Int))) ∧
      (e.index = -1 → (validate input).total_samples = 0) := by
  cases input with
  | missing p =>
      rw [validate_missing_eq] at he ⊢
      simp only [List.mem_singleton, List.not_mem_nil, or_false] at he
      subst he
      exact ⟨Or.inl rfl, fun _ => rfl⟩
  | file p sfx jd jl =>
      by_cases hs : pyLower sfx ∈ ([".json", ".jsonl"] : List String)
      · simp only [List.mem_cons, List.mem_singleton, List.not_mem_nil,
          or_false] at hs
        rcases hs with hj | hj
        · cases jd with
          | err m =>
              rw [validate_json_parsefail_eq p sfx (ParseOutcome.err m) jl m hj
                rfl] at he ⊢
              simp only [List.mem_singleton, List.not_mem_nil, or_false] at he
              subst he
              exact ⟨Or.inl rfl, fun _ => rfl⟩
          | ok v =>
              cases v with
              | arr xs =>
                  rw [validate_json_loaded_eq p sfx (ParseOutcome.ok (Json.arr xs))
                    jl xs hj rfl] at he ⊢
                  exact loaded_report_invariant xs e he
              | null =>
                  rw [validate_nonarray_eq p sfx (ParseOutcome.ok Json.null) jl
                    Json.null hj rfl (fun _ h => Json.noConfusion h)] at he ⊢
                  simp only [List.mem_singleton, List.not_mem_nil, or_false] at he
                  subst he
                  exact ⟨Or.inl rfl, fun _ => rfl⟩
              | bool b =>
                  rw [validate_nonarray_eq p sfx (ParseOutcome.ok (Json.bool b)) jl
                    (Json.bool b) hj rfl (fun _ h => Json.noConfusion h)] at he ⊢
                  simp only [List.mem_singleton, List.not_mem_nil, or_false] at he
                  subst he
                  exact ⟨Or.inl rfl, fun _ => rfl⟩
              | int n =>
                  rw [validate_nonarray_eq p sfx (ParseOutcome.ok (Json.int n)) jl
                    (Json.int n) hj rfl (fun _ h => Json.noConfusion h)] at he ⊢
                  simp only [List.mem_singleton, List.not_mem_nil, or_false] at he
                  subst he
                  exact ⟨Or.inl rfl, fun _ => rfl⟩
              | float q =>
                  rw [validate_nonarray_eq p sfx (ParseOutcome.ok (Json.float q)) jl
                    (Json.float q) hj rfl (fun _ h => Json.noConfusion h)] at he ⊢
                  simp only [List.mem_singleton, List.not_mem_nil, or_false] at he
                  subst he
                  exact ⟨Or.inl rfl, fun _ => rfl⟩
              | str s =>
                  rw [validate_nonarray_eq p sfx (ParseOutcome.ok (Json.str s)) jl
                    (Json.str s) hj rfl (fun _ h => Json.noConfusion h)] at he ⊢
                  simp only [List.mem_singleton, List.not_mem_nil, or_false] at he
                  subst he
                  exact ⟨Or.inl rfl, fun _ => rfl⟩
              | obj kvs =>
                  rw [validate_nonarray_eq p sfx (ParseOutcome.ok (Json.obj kvs)) jl
                    (Json.obj kvs) hj rfl (fun _ h => Json.noConfusion h)] at he ⊢
                  simp only [List.mem_singleton, List.not_mem_nil, or_false] at he
                  subst he
                  exact ⟨Or.inl rfl, fun _ => rfl⟩
        · cases hl : load_jsonl jl with
          | error m =>
              rw [validate_jsonl_parsefail_eq p sfx jd jl m hj hl] at he ⊢
              simp only [List.mem_singleton, List.not_mem_nil, or_false] at he
              subst he
              exact ⟨Or.inl rfl, fun _ => rfl⟩
          | ok xs =>
              rw [validate_jsonl_loaded_eq p sfx jd jl xs hj hl] at he ⊢
              exact loaded_report_invariant xs e he
      · rw [validate_badext_eq p sfx jd jl hs] at he ⊢
        simp only [List.mem_singleton, List.not_mem_nil, or_false] at he
        subst he
        exact ⟨Or.inl rfl, fun _ => rfl⟩

/-- Witness for C10 at the file-level error of a missing path. -/
theorem C10_finding_index_invariant_witness :
    (((⟨-1, "", "文件不存在: " ++ "w.json"⟩ : ValidationError).index = -1 ∨
        (0 ≤ (⟨-1, "", "文件不存在: " ++ "w.json"⟩ : ValidationError).index ∧
          (⟨-1, "", "文件不存在: " ++ "w.json"⟩ : ValidationError).index <
            ((validate (FileInput.missing "w.json")).total_samples : Int))) ∧
      ((⟨-1, "", "文件不存在: " ++ "w.json"⟩ : ValidationError).index = -1 →
        (validate (FileInput.missing "w.json")).total_samples = 0)) :=
  C10_finding_index_invariant (FileInput.missing "w.json")
    ⟨-1, "", "文件不存在: " ++ "w.json"⟩
    (Or.inl (by rw [validate_missing_eq]; exact List.mem_singleton.mpr rfl))
